import Mathlib

/-!
Verification development for the Fairy personal-assistant orchestrator.

Shallow embedding of the core components the specification describes:
the usage ledger (`src/usage-tracker.ts`), the delegated-session registry
and its config store (`src/ai/subagent.ts`), and the restart-on-change
detection (`src/file-snapshot.ts`, `src/telegram/bot.ts`, `src/config.ts`).

Modelling conventions:
* JavaScript `Map` objects and the one-file-per-identifier config folder
  are modelled as association lists in insertion order; `Map.delete`
  removes the (unique) entry with the given key.
* File contents written with `JSON.stringify` and read back with
  `JSON.parse` are modelled at the JSON-value level (a `Json` AST):
  stringify-then-parse is the identity on the AST, so a file holds the
  `Json` value that was written.
* JavaScript numbers that only ever hold multiplier sums or mtimes are
  modelled as rationals (all catalog multipliers are exact decimals).
* `async` calls into the AI runtime that may reject are modelled with
  `Option` (the `CopilotClient` is a function from session parameters to
  `Option CopilotSession`); a thrown exception that propagates out of a
  registry operation is an `Except.error`, and the registry state is
  returned alongside so that the "nothing changed" part is expressible.
* `Date` values are modelled as abstract `Nat` timestamps passed in by
  the caller.
-/

namespace Fairy

/-- JavaScript `Map` lookup (`Map.get`) on an insertion-ordered association list. -/
def mapGet {α : Type} : List (String × α) → String → Option α
  | [], _ => none
  | (k', v) :: rest, k => if k' = k then some v else mapGet rest k

/-- JavaScript `Map.set`: replace the entry in place if the key exists, else append. -/
def mapSet {α : Type} : List (String × α) → String → α → List (String × α)
  | [], k, v => [(k, v)]
  | (k', v') :: rest, k, v =>
    if k' = k then (k, v) :: rest else (k', v') :: mapSet rest k v

/-- JavaScript `Map.delete`: remove the entry with the given key (keys are unique
in a `Map`, so removing every match is the same operation). -/
def mapDelete {α : Type} : List (String × α) → String → List (String × α)
  | [], _ => []
  | (k', v) :: rest, k =>
    if k' = k then mapDelete rest k else (k', v) :: mapDelete rest k

/-- JavaScript `String.prototype.toLowerCase`, character by character (the
identifiers and descriptions involved are ASCII, where this is exact). -/
def jsToLower (s : String) : String :=
  String.mk (s.toList.map Char.toLower)

/-- Bool-valued test that `needle` occurs as a contiguous infix of `hay`. -/
def occursWithin (needle : List Char) : List Char → Bool
  | [] => needle.isEmpty
  | c :: rest => needle.isPrefixOf (c :: rest) || occursWithin needle rest

/-- JavaScript `String.prototype.includes`: `strContains hay needle` is true when
`needle` occurs as a literal substring of `hay`. -/
def strContains (hay needle : String) : Bool :=
  occursWithin needle.toList hay.toList

/-- JavaScript `str.split(/\s+/)`, character by character: maximal whitespace runs
separate the pieces; a leading or trailing run (and the empty string) produce
empty-string pieces, exactly as in JavaScript. The Bool flag records whether the
scan is currently inside a separator run. -/
def jsSplitWsGo : List Char → List Char → Bool → List String
  | [], acc, _ => [String.mk acc.reverse]
  | c :: cs, acc, inSep =>
    if c.isWhitespace then
      if inSep then jsSplitWsGo cs acc true
      else String.mk acc.reverse :: jsSplitWsGo cs [] true
    else jsSplitWsGo cs (c :: acc) false

/-- JavaScript `str.split(/\s+/)`. -/
def jsSplitWs (s : String) : List String :=
  jsSplitWsGo s.toList [] false

/-- Spec-side tokenizer, for comparison with the code's `split(/\s+/)`: the
whitespace-separated tokens of a query, where an empty piece is not a token. -/
def wsTokens (q : String) : List String :=
  (jsSplitWs q).filter (fun t => t ≠ "")

-- ---------- JSON values (file contents) ----------

/-- JSON value AST; a config file holds the value `JSON.stringify` serialized. -/
inductive Json : Type where
  | jnull : Json
  | jbool : Bool → Json
  | jnum : ℚ → Json
  | jstr : String → Json
  | jarr : List Json → Json
  | jobj : List (String × Json) → Json

-- ---------- Subagent data model (src/ai/subagent.ts) ----------

/-- Durable record describing a delegated (subagent) session. -/
structure SubagentConfig : Type where
  id : String
  description : String
  model : String
  systemPrompt : String
  createdAt : String
deriving DecidableEq, Repr

/-- Serialize a config the way `JSON.stringify(config)` lays out its fields. -/
def configToJson (c : SubagentConfig) : Json :=
  .jobj [("id", .jstr c.id), ("description", .jstr c.description),
         ("model", .jstr c.model), ("systemPrompt", .jstr c.systemPrompt),
         ("createdAt", .jstr c.createdAt)]

/-- Read a string field out of a parsed JSON object. -/
def jGetStr (fields : List (String × Json)) (k : String) : Option String :=
  match mapGet fields k with
  | some (.jstr s) => some s
  | _ => none

/-- Recover a `SubagentConfig` from a parsed JSON value (the shape the rest of
the code relies on after the unchecked `as SubagentConfig` cast). -/
def decodeConfig : Json → Option SubagentConfig
  | .jobj fields =>
    match jGetStr fields "id", jGetStr fields "description", jGetStr fields "model",
          jGetStr fields "systemPrompt", jGetStr fields "createdAt" with
    | some i, some d, some m, some sp, some ca =>
      some { id := i, description := d, model := m, systemPrompt := sp, createdAt := ca }
    | _, _, _, _, _ => none
  | _ => none

/-- Opaque live runtime session handle. -/
structure CopilotSession : Type where
  handle : Nat
deriving DecidableEq, Repr

/-- Parameters `buildSession` passes to the runtime (`client.createSession`). -/
structure SessionParams : Type where
  sessionId : String
  model : String
  systemMessage : String
deriving DecidableEq, Repr

/-- The AI runtime, modelled by what `createSession` does: succeed with a live
session or reject (`none`, a thrown exception at the `await`). -/
structure CopilotClient : Type where
  createSession : SessionParams → Option CopilotSession

/-- In-memory subagent instance: config plus live session. -/
structure SubagentInstance : Type where
  config : SubagentConfig
  session : CopilotSession
deriving DecidableEq, Repr

/-- Registry state: the on-disk config folder (one JSON record per identifier)
and the in-memory `activeSubagents` map. -/
structure RegistryState : Type where
  store : List (String × Json)
  cache : List (String × SubagentInstance)

/-- `buildSession`: create a runtime session bound to the config's id, model and
system prompt (the error-event subscription is an observation-only effect). -/
def buildSession (client : CopilotClient) (config : SubagentConfig) : Option CopilotSession :=
  client.createSession
    { sessionId := config.id, model := config.model, systemMessage := config.systemPrompt }

/-- `saveSubagentConfig`: overwrite-or-create the record (file `id.json`) for the config. -/
def saveSubagentConfig (store : List (String × Json)) (config : SubagentConfig) :
    List (String × Json) :=
  mapSet store config.id (configToJson config)

/-- `getSubagentConfig`: read the record for `id`; `none` when the file is absent
or does not parse to a config. -/
def getSubagentConfig (store : List (String × Json)) (id : String) : Option SubagentConfig :=
  match mapGet store id with
  | none => none
  | some j => decodeConfig j

/-- `loadSubagentConfigs`: parse every record, skipping records that fail to parse. -/
def loadSubagentConfigs (store : List (String × Json)) : List SubagentConfig :=
  store.filterMap (fun entry => decodeConfig entry.2)

/-- `createSubagent`: build the full config around a fresh id, construct the
runtime session, then persist the config and cache the instance. A session
construction failure propagates before anything is persisted or cached. -/
def createSubagent (client : CopilotClient) (freshId createdAt : String)
    (description model systemPrompt : String) (st : RegistryState) :
    Except Unit SubagentInstance × RegistryState :=
  let fullConfig : SubagentConfig :=
    { id := freshId, description := description, model := model,
      systemPrompt := systemPrompt, createdAt := createdAt }
  match buildSession client fullConfig with
  | none => (.error (), st)
  | some session =>
    let inst : SubagentInstance := { config := fullConfig, session := session }
    (.ok inst,
     { store := saveSubagentConfig st.store fullConfig,
       cache := mapSet st.cache freshId inst })

/-- `getOrCreateSubagent`: cache hit returns the cached instance; otherwise load
the stored config (absent: `none`), rebuild the session and cache the new
instance; a session construction failure propagates with no state change. -/
def getOrCreateSubagent (client : CopilotClient) (id : String) (st : RegistryState) :
    Except Unit (Option SubagentInstance) × RegistryState :=
  match mapGet st.cache id with
  | some cached => (.ok (some cached), st)
  | none =>
    match getSubagentConfig st.store id with
    | none => (.ok none, st)
    | some config =>
      match buildSession client config with
      | none => (.error (), st)
      | some session =>
        let inst : SubagentInstance := { config := config, session := session }
        (.ok (some inst), { st with cache := mapSet st.cache id inst })

/-- `findSimilarSubagents`: load all configs, lowercase-tokenize the query on
whitespace, keep every config whose lowercased description contains some token. -/
def findSimilarSubagents (store : List (String × Json)) (description : String) :
    List SubagentConfig :=
  let configs := loadSubagentConfigs store
  let keywords := jsSplitWs (jsToLower description)
  configs.filter (fun config =>
    keywords.any (fun keyword => strContains (jsToLower config.description) keyword))

/-- `destroySubagent`: when the id is cached, release its session (returned as
the first component) and evict the cache entry; otherwise do nothing. The
on-disk store is never touched. -/
def destroySubagent (id : String) (st : RegistryState) :
    Option CopilotSession × RegistryState :=
  match mapGet st.cache id with
  | none => (none, st)
  | some inst => (some inst.session, { st with cache := mapDelete st.cache id })

-- ---------- Usage tracker (src/usage-tracker.ts) ----------

/-- The `MODEL_MULTIPLIERS` table, in source (insertion) order. -/
def MODEL_MULTIPLIERS : List (String × ℚ) :=
  [("gpt-5-mini", 0), ("gpt-4.1", 0), ("gpt-4o", 0),
   ("claude-opus-4.5", 3), ("claude-opus-4.6", 9),
   ("claude-sonnet-4.5", 1), ("claude-sonnet-4", 1), ("claude-haiku-4.5", 0.25),
   ("gpt-5", 1), ("gpt-5.1", 1), ("gpt-5.1-codex", 1), ("gpt-5.1-codex-mini", 0.5),
   ("gpt-5.1-codex-max", 2), ("gpt-5.2", 1), ("gpt-5.2-codex", 1),
   ("gemini-3-pro-preview", 1),
   ("o1", 3), ("o1-mini", 1), ("o3-mini", 1)]

/-- The partial-match loop of `getModelMultiplier`: first catalog entry whose
lowercased key contains, or is contained in, the lowercased model id. -/
def looseMatch (lowerModelId : String) : List (String × ℚ) → Option ℚ
  | [] => none
  | (key, value) :: rest =>
    if strContains lowerModelId (jsToLower key) || strContains (jsToLower key) lowerModelId then
      some value
    else looseMatch lowerModelId rest

/-- `getModelMultiplier`: exact key match, then case-insensitive substring match
in either direction, then the default 1 (with a warning, an effect not modelled). -/
def getModelMultiplier (modelId : String) : ℚ :=
  match mapGet MODEL_MULTIPLIERS modelId with
  | some v => v
  | none =>
    match looseMatch (jsToLower modelId) MODEL_MULTIPLIERS with
    | some v => v
    | none => 1

/-- Per-conversation usage record (`ConversationUsage`). -/
structure ConversationUsage : Type where
  startTime : Nat
  endTime : Option Nat
  model : String
  requestCount : Nat
  premiumRequestsUsed : ℚ
deriving DecidableEq, Repr

/-- Session-lifetime totals (`UsageStats`). -/
structure UsageStats : Type where
  sessionTotal : ℚ
  sessionRequests : Nat
  conversations : List ConversationUsage
deriving DecidableEq, Repr

/-- The `UsageTracker` class state. -/
structure UsageTracker : Type where
  model : String
  multiplier : ℚ
  currentConversation : Option ConversationUsage
  stats : UsageStats
deriving DecidableEq, Repr

/-- The `UsageTracker` constructor. -/
def UsageTracker.init (model : String) : UsageTracker :=
  { model := model, multiplier := getModelMultiplier model,
    currentConversation := none,
    stats := { sessionTotal := 0, sessionRequests := 0, conversations := [] } }

/-- `recordRequest`: open a conversation if none is open, then bump its counters
and the session totals by the tracker's multiplier. `now` models `new Date()`. -/
def UsageTracker.recordRequest (t : UsageTracker) (now : Nat) : UsageTracker :=
  let conv : ConversationUsage :=
    match t.currentConversation with
    | some c => c
    | none =>
      { startTime := now, endTime := none, model := t.model,
        requestCount := 0, premiumRequestsUsed := 0 }
  let conv' : ConversationUsage :=
    { conv with requestCount := conv.requestCount + 1,
                premiumRequestsUsed := conv.premiumRequestsUsed + t.multiplier }
  { t with currentConversation := some conv',
           stats := { t.stats with
                        sessionRequests := t.stats.sessionRequests + 1,
                        sessionTotal := t.stats.sessionTotal + t.multiplier } }

/-- `endConversation`: close the open conversation (set `endTime`, append a copy
to history, clear the current slot) and return the copy; `none` when nothing is
open. -/
def UsageTracker.endConversation (t : UsageTracker) (now : Nat) :
    Option ConversationUsage × UsageTracker :=
  match t.currentConversation with
  | none => (none, t)
  | some conv =>
    let completed : ConversationUsage := { conv with endTime := some now }
    (some completed,
     { t with currentConversation := none,
              stats := { t.stats with
                           conversations := t.stats.conversations ++ [completed] } })

/-- A sequence of `recordRequest` calls at the given timestamps. -/
def recordSeq (times : List Nat) (t : UsageTracker) : UsageTracker :=
  times.foldl (fun acc now => acc.recordRequest now) t

/-- One tracker operation, for stating invariants over arbitrary histories. -/
inductive TrackerOp : Type where
  | record : Nat → TrackerOp
  | endConv : Nat → TrackerOp

/-- Apply one operation to the tracker (the value `endConversation` returns is
dropped; only the state evolution matters for the invariant). -/
def applyOp (t : UsageTracker) : TrackerOp → UsageTracker
  | .record now => t.recordRequest now
  | .endConv now => (t.endConversation now).2

/-- Run a whole operation history. -/
def runOps (ops : List TrackerOp) (t : UsageTracker) : UsageTracker :=
  ops.foldl applyOp t

/-- Premium units attributed to the (possibly absent) open conversation. -/
def currentPremium (t : UsageTracker) : ℚ :=
  match t.currentConversation with
  | none => 0
  | some c => c.premiumRequestsUsed

/-- Requests attributed to the (possibly absent) open conversation. -/
def currentRequests (t : UsageTracker) : Nat :=
  match t.currentConversation with
  | none => 0
  | some c => c.requestCount

/-- Accounting invariant: the session totals equal history plus open conversation. -/
def TrackerInv (t : UsageTracker) : Prop :=
  t.stats.sessionTotal =
    (t.stats.conversations.map (fun c => c.premiumRequestsUsed)).sum + currentPremium t ∧
  t.stats.sessionRequests =
    (t.stats.conversations.map (fun c => c.requestCount)).sum + currentRequests t

-- ---------- File snapshots and restart sentinel ----------

/-- `FileSnapshot`: path → mtime (milliseconds), insertion-ordered like a `Map`. -/
abbrev FileSnapshot : Type := List (String × ℚ)

/-- Node's `relative(projectRoot, file)` for the only case that arises here:
files discovered under the project root. -/
def relativePath (projectRoot file : String) : String :=
  let pre := (projectRoot ++ "/").toList
  if pre.isPrefixOf file.toList then String.mk (file.toList.drop pre.length) else file

/-- `detectChanges`: files added or modified (in `after` with a different or
missing `before` mtime) followed by files deleted (in `before` but not `after`). -/
def detectChanges (projectRoot : String) (before after : FileSnapshot) : List String :=
  let addedOrModified := after.filterMap (fun p =>
    match mapGet before p.1 with
    | none => some (relativePath projectRoot p.1)
    | some m => if m = p.2 then none else some (relativePath projectRoot p.1))
  let deleted := before.filterMap (fun p =>
    if (mapGet after p.1).isSome then none
    else some (relativePath projectRoot p.1 ++ " (deleted)"))
  addedOrModified ++ deleted

/-- `RESTART_EXIT_CODE` from `src/config.ts`: the reserved restart sentinel. -/
def RESTART_EXIT_CODE : Nat := 42

/-- The post-reply restart step of the `message:text` handler in
`src/telegram/bot.ts`: compare the snapshots and exit with the sentinel code
exactly when some tracked file changed (`some code` models `process.exit(code)`,
`none` models continuing to serve). -/
def restartDecision (projectRoot : String) (before after : FileSnapshot) : Option Nat :=
  let changedFiles := detectChanges projectRoot before after
  if changedFiles.length > 0 then some RESTART_EXIT_CODE else none

-- ---------- Helper lemmas ----------

theorem mapGet_mapSet_self {α : Type} (m : List (String × α)) (k : String) (v : α) :
    mapGet (mapSet m k v) k = some v := by
  induction m with
  | nil => simp [mapSet, mapGet]
  | cons p rest ih =>
    by_cases h : p.1 = k
    · simp [mapSet, mapGet, h]
    · simp [mapSet, mapGet, h, ih]

theorem mapGet_mapSet_ne {α : Type} (m : List (String × α)) (k k' : String) (v : α)
    (h : k' ≠ k) : mapGet (mapSet m k v) k' = mapGet m k' := by
  have hk : ¬k = k' := fun e => h e.symm
  induction m with
  | nil => simp [mapSet, mapGet, hk]
  | cons p rest ih =>
    obtain ⟨pk, pv⟩ := p
    by_cases hp : pk = k
    · simp [mapSet, mapGet, hp, hk]
    · by_cases hp' : pk = k'
      · simp [mapSet, mapGet, hp, hp', h, hk]
      · simp [mapSet, mapGet, hp, hp', ih]

theorem mapGet_mapDelete_self {α : Type} (m : List (String × α)) (k : String) :
    mapGet (mapDelete m k) k = none := by
  induction m with
  | nil => rfl
  | cons p rest ih =>
    obtain ⟨pk, pv⟩ := p
    by_cases hp : pk = k
    · simpa [mapDelete, hp] using ih
    · simpa [mapDelete, mapGet, hp] using ih

theorem mapGet_mapDelete_ne {α : Type} (m : List (String × α)) (k k' : String)
    (h : k' ≠ k) : mapGet (mapDelete m k) k' = mapGet m k' := by
  have hk : ¬k = k' := fun e => h e.symm
  induction m with
  | nil => rfl
  | cons p rest ih =>
    obtain ⟨pk, pv⟩ := p
    by_cases hp : pk = k
    · simpa [mapDelete, mapGet, hp, hk] using ih
    · by_cases hp' : pk = k'
      · simp [mapDelete, mapGet, hp, hp', h]
      · simpa [mapDelete, mapGet, hp, hp'] using ih

theorem mapGet_mem {α : Type} {m : List (String × α)} {k : String} {v : α}
    (h : mapGet m k = some v) : (k, v) ∈ m := by
  induction m with
  | nil => simp [mapGet] at h
  | cons p rest ih =>
    obtain ⟨pk, pv⟩ := p
    by_cases hp : pk = k
    · have hv : pv = v := by simpa [mapGet, hp] using h
      subst hv
      subst hp
      exact List.mem_cons_self _ _
    · simp only [mapGet, if_neg hp] at h
      exact List.mem_cons_of_mem _ (ih h)

theorem mapGet_isSome_of_mem {α : Type} {m : List (String × α)} {k : String} {v : α}
    (h : (k, v) ∈ m) : (mapGet m k).isSome := by
  induction m with
  | nil => simp at h
  | cons p rest ih =>
    rcases List.mem_cons.mp h with h | h
    · simp [mapGet, ← h]
    · by_cases hp : p.1 = k
      · simp [mapGet, hp]
      · simpa [mapGet, hp] using ih h

theorem mem_mapGet_of_nodup {α : Type} {m : List (String × α)} {k : String} {v : α}
    (hnd : (m.map Prod.fst).Nodup) (h : (k, v) ∈ m) : mapGet m k = some v := by
  induction m with
  | nil => simp at h
  | cons p rest ih =>
    simp only [List.map_cons, List.nodup_cons] at hnd
    rcases List.mem_cons.mp h with h | h
    · simp [mapGet, ← h]
    · have hp : p.1 ≠ k := by
        intro e
        exact hnd.1 (by simpa [e] using List.mem_map_of_mem Prod.fst h)
      simpa [mapGet, hp] using ih hnd.2 h

theorem looseMatch_mem {s : String} {l : List (String × ℚ)} {v : ℚ}
    (h : looseMatch s l = some v) : ∃ k, (k, v) ∈ l := by
  induction l with
  | nil => simp [looseMatch] at h
  | cons p rest ih =>
    by_cases hc : (strContains s (jsToLower p.1) || strContains (jsToLower p.1) s) = true
    · refine ⟨p.1, ?_⟩
      simp [looseMatch, hc] at h
      simp [← h]
    · simp only [looseMatch, hc, if_false] at h
      obtain ⟨k, hk⟩ := ih h
      exact ⟨k, List.mem_cons_of_mem _ hk⟩

theorem looseMatch_first (s : String) (l₁ l₂ : List (String × ℚ)) (key : String) (v : ℚ)
    (h₁ : ∀ p ∈ l₁, strContains s (jsToLower p.1) = false ∧
        strContains (jsToLower p.1) s = false)
    (h₂ : (strContains s (jsToLower key) || strContains (jsToLower key) s) = true) :
    looseMatch s (l₁ ++ (key, v) :: l₂) = some v := by
  induction l₁ with
  | nil => simp [looseMatch, h₂]
  | cons p rest ih =>
    obtain ⟨pk, pv⟩ := p
    have hp := h₁ (pk, pv) (List.mem_cons_self _ _)
    have hcond : (strContains s (jsToLower pk) || strContains (jsToLower pk) s) = false := by
      rw [hp.1, hp.2]
      rfl
    rw [List.cons_append]
    simp only [looseMatch, hcond, Bool.false_eq_true, if_false]
    exact ih fun q hq => h₁ q (List.mem_cons_of_mem _ hq)

theorem strContains_empty (s : String) : strContains s "" = true := by
  show occursWithin "".toList s.toList = true
  induction s.toList with
  | nil => rfl
  | cons c rest ih => simp [occursWithin, List.isPrefixOf]

theorem decodeConfig_configToJson (c : SubagentConfig) :
    decodeConfig (configToJson c) = some c := rfl

theorem getModelMultiplier_nonneg (modelId : String) : 0 ≤ getModelMultiplier modelId := by
  have hcat : ∀ p ∈ MODEL_MULTIPLIERS, 0 ≤ p.2 := by
    intro p hp
    fin_cases hp <;> norm_num
  unfold getModelMultiplier
  cases h₁ : mapGet MODEL_MULTIPLIERS modelId with
  | some v => exact hcat (modelId, v) (mapGet_mem h₁)
  | none =>
    cases h₂ : looseMatch (jsToLower modelId) MODEL_MULTIPLIERS with
    | some v =>
      obtain ⟨k, hk⟩ := looseMatch_mem h₂
      exact hcat (k, v) hk
    | none => norm_num

theorem wsTokens_eq_of_no_empty {s : String} (h : "" ∉ jsSplitWs s) :
    wsTokens s = jsSplitWs s := by
  unfold wsTokens
  exact List.filter_eq_self.mpr fun t ht => by
    simp only [ne_eq, decide_eq_true_eq]
    exact fun e => h (e ▸ ht)

theorem recordRequest_multiplier (t : UsageTracker) (now : Nat) :
    (t.recordRequest now).multiplier = t.multiplier := rfl

theorem recordRequest_sessionTotal (t : UsageTracker) (now : Nat) :
    (t.recordRequest now).stats.sessionTotal = t.stats.sessionTotal + t.multiplier := rfl

theorem recordRequest_sessionRequests (t : UsageTracker) (now : Nat) :
    (t.recordRequest now).stats.sessionRequests = t.stats.sessionRequests + 1 := rfl

theorem recordSeq_cons (now : Nat) (times : List Nat) (t : UsageTracker) :
    recordSeq (now :: times) t = recordSeq times (t.recordRequest now) := rfl

theorem recordSeq_multiplier (times : List Nat) (t : UsageTracker) :
    (recordSeq times t).multiplier = t.multiplier := by
  induction times generalizing t with
  | nil => rfl
  | cons now rest ih => rw [recordSeq_cons, ih, recordRequest_multiplier]

theorem recordSeq_sessionTotal (times : List Nat) (t : UsageTracker) :
    (recordSeq times t).stats.sessionTotal
      = t.stats.sessionTotal + (times.length : ℚ) * t.multiplier := by
  induction times generalizing t with
  | nil => simp [recordSeq]
  | cons now rest ih =>
    rw [recordSeq_cons, ih, recordRequest_sessionTotal, recordRequest_multiplier,
      List.length_cons]
    push_cast
    ring

theorem recordSeq_sessionRequests (times : List Nat) (t : UsageTracker) :
    (recordSeq times t).stats.sessionRequests
      = t.stats.sessionRequests + times.length := by
  induction times generalizing t with
  | nil => simp [recordSeq]
  | cons now rest ih =>
    rw [recordSeq_cons, ih, recordRequest_sessionRequests, List.length_cons]
    omega

theorem trackerInv_init (model : String) : TrackerInv (UsageTracker.init model) := by
  constructor <;> simp [UsageTracker.init, currentPremium, currentRequests]

theorem trackerInv_applyOp {t : UsageTracker} (op : TrackerOp) (h : TrackerInv t) :
    TrackerInv (applyOp t op) := by
  obtain ⟨h₁, h₂⟩ := h
  cases op with
  | record now =>
    cases hc : t.currentConversation with
    | none =>
      constructor
      · simp only [applyOp, UsageTracker.recordRequest, hc, h₁, currentPremium]
        try ring
      · simp only [applyOp, UsageTracker.recordRequest, hc, h₂, currentRequests]
        try omega
    | some conv =>
      constructor
      · simp only [applyOp, UsageTracker.recordRequest, hc, h₁, currentPremium]
        try ring
      · simp only [applyOp, UsageTracker.recordRequest, hc, h₂, currentRequests]
        try omega
  | endConv now =>
    cases hc : t.currentConversation with
    | none =>
      constructor
      · simpa only [applyOp, UsageTracker.endConversation, hc] using h₁
      · simpa only [applyOp, UsageTracker.endConversation, hc] using h₂
    | some conv =>
      constructor
      · simp only [applyOp, UsageTracker.endConversation, hc, h₁, currentPremium,
          List.map_append, List.sum_append, List.map_cons, List.map_nil, List.sum_cons,
          List.sum_nil]
        try ring
      · simp only [applyOp, UsageTracker.endConversation, hc, h₂, currentRequests,
          List.map_append, List.sum_append, List.map_cons, List.map_nil, List.sum_cons,
          List.sum_nil]
        try omega

theorem trackerInv_runOps_aux (ops : List TrackerOp) {t : UsageTracker}
    (h : TrackerInv t) : TrackerInv (runOps ops t) := by
  induction ops generalizing t with
  | nil => exact h
  | cons op rest ih => exact ih (trackerInv_applyOp op h)

/-- Shared roundtrip lemma: saving a config and loading it back by its id
recovers the config. -/
theorem getSubagentConfig_saveSubagentConfig (store : List (String × Json))
    (config : SubagentConfig) :
    getSubagentConfig (saveSubagentConfig store config) config.id = some config := by
  have h : getSubagentConfig (saveSubagentConfig store config) config.id
      = decodeConfig (configToJson config) := by
    unfold getSubagentConfig saveSubagentConfig
    rw [mapGet_mapSet_self]
  rw [h, decodeConfig_configToJson]

-- ---------- Claim theorems ----------

/-- Claim C3, counterexample: the identifier "claude-opus-4.5-preview" is not a
key of the catalog, yet `getModelMultiplier` returns 3 for it (via the
case-insensitive substring fallback), not the claimed 1.0. -/
theorem getModelMultiplier_counterexample :
    mapGet MODEL_MULTIPLIERS "claude-opus-4.5-preview" = none ∧
    getModelMultiplier "claude-opus-4.5-preview" = 3 ∧ (3 : ℚ) ≠ 1 :=
  ⟨by decide, by decide, by norm_num⟩

/-- Claim C3, amended: `getModelMultiplier` is total (never throws); an exact
catalog hit returns exactly the configured multiplier — in particular 1 for
"claude-sonnet-4" and 3 for "claude-opus-4.5"; an identifier not in the
catalog takes the multiplier of the first catalog entry that matches it by
case-insensitive substring containment in either direction (stated universally
over every decomposition of the catalog around the first matching entry); and
an identifier that misses both the exact lookup and the substring fallback
yields the default multiplier 1. -/
theorem getModelMultiplier_spec :
    (∀ modelId m, mapGet MODEL_MULTIPLIERS modelId = some m →
        getModelMultiplier modelId = m) ∧
    getModelMultiplier "claude-sonnet-4" = 1 ∧
    getModelMultiplier "claude-opus-4.5" = 3 ∧
    (∀ modelId l₁ key v l₂, mapGet MODEL_MULTIPLIERS modelId = none →
        MODEL_MULTIPLIERS = l₁ ++ (key, v) :: l₂ →
        (∀ p ∈ l₁, strContains (jsToLower modelId) (jsToLower p.1) = false ∧
            strContains (jsToLower p.1) (jsToLower modelId) = false) →
        (strContains (jsToLower modelId) (jsToLower key)
            || strContains (jsToLower key) (jsToLower modelId)) = true →
        getModelMultiplier modelId = v) ∧
    (∀ modelId, mapGet MODEL_MULTIPLIERS modelId = none →
        looseMatch (jsToLower modelId) MODEL_MULTIPLIERS = none →
        getModelMultiplier modelId = 1) := by
  refine ⟨?_, rfl, rfl, ?_, ?_⟩
  · intro modelId m h
    unfold getModelMultiplier
    rw [h]
  · intro modelId l₁ key v l₂ hm hdecomp hno hyes
    unfold getModelMultiplier
    rw [hm, hdecomp, looseMatch_first (jsToLower modelId) l₁ l₂ key v hno hyes]
  · intro modelId h₁ h₂
    unfold getModelMultiplier
    rw [h₁, h₂]

/-- Claim C3, witness for the amended statement: a catalog identifier, a
non-catalog identifier resolved by the substring fallback to the first
matching entry's multiplier, and an identifier missing both lookup paths. -/
theorem getModelMultiplier_spec_witness :
    getModelMultiplier "claude-sonnet-4" = 1 ∧
    getModelMultiplier "Claude-Opus-4.5-Preview" = 3 ∧
    getModelMultiplier "totally-unknown-model-xyz" = 1 :=
  ⟨getModelMultiplier_spec.1 "claude-sonnet-4" 1 rfl,
   getModelMultiplier_spec.2.2.2.1 "Claude-Opus-4.5-Preview"
     [("gpt-5-mini", 0), ("gpt-4.1", 0), ("gpt-4o", 0)] "claude-opus-4.5" 3
     [("claude-opus-4.6", 9),
      ("claude-sonnet-4.5", 1), ("claude-sonnet-4", 1), ("claude-haiku-4.5", 0.25),
      ("gpt-5", 1), ("gpt-5.1", 1), ("gpt-5.1-codex", 1), ("gpt-5.1-codex-mini", 0.5),
      ("gpt-5.1-codex-max", 2), ("gpt-5.2", 1), ("gpt-5.2-codex", 1),
      ("gemini-3-pro-preview", 1),
      ("o1", 3), ("o1-mini", 1), ("o3-mini", 1)]
     (by decide) rfl (by decide) (by decide),
   getModelMultiplier_spec.2.2.2.2 "totally-unknown-model-xyz" (by decide) (by decide)⟩

/-- Claim C6: from a freshly constructed tracker, after any sequence of
`recordRequest` calls the session total is the number of calls times the
model's multiplier and the session request count is the number of calls; both
totals are monotonically non-decreasing in the number of calls. -/
theorem recordRequest_totals (model : String) (times₁ times₂ : List Nat)
    (h : times₁.length ≤ times₂.length) :
    (recordSeq times₁ (UsageTracker.init model)).stats.sessionTotal
        = (times₁.length : ℚ) * getModelMultiplier model ∧
    (recordSeq times₁ (UsageTracker.init model)).stats.sessionRequests
        = times₁.length ∧
    (recordSeq times₁ (UsageTracker.init model)).stats.sessionTotal
        ≤ (recordSeq times₂ (UsageTracker.init model)).stats.sessionTotal ∧
    (recordSeq times₁ (UsageTracker.init model)).stats.sessionRequests
        ≤ (recordSeq times₂ (UsageTracker.init model)).stats.sessionRequests := by
  have hm : (UsageTracker.init model).multiplier = getModelMultiplier model := rfl
  have h0 : (UsageTracker.init model).stats.sessionTotal = 0 := rfl
  have h0r : (UsageTracker.init model).stats.sessionRequests = 0 := rfl
  have e₁ := recordSeq_sessionTotal times₁ (UsageTracker.init model)
  have e₂ := recordSeq_sessionTotal times₂ (UsageTracker.init model)
  have r₁ := recordSeq_sessionRequests times₁ (UsageTracker.init model)
  have r₂ := recordSeq_sessionRequests times₂ (UsageTracker.init model)
  rw [hm, h0, zero_add] at e₁ e₂
  rw [h0r, Nat.zero_add] at r₁ r₂
  refine ⟨e₁, r₁, ?_, ?_⟩
  · rw [e₁, e₂]
    have hle : (times₁.length : ℚ) ≤ (times₂.length : ℚ) := by exact_mod_cast h
    exact mul_le_mul_of_nonneg_right hle (getModelMultiplier_nonneg model)
  · rw [r₁, r₂]
    exact h

/-- Claim C6, witness: two calls on an opus tracker consume 2 × 3 units and the
totals do not exceed those after three calls. -/
theorem recordRequest_totals_witness :
    (recordSeq [0, 1] (UsageTracker.init "claude-opus-4.5")).stats.sessionTotal
        = ((2 : ℚ)) * getModelMultiplier "claude-opus-4.5" ∧
    (recordSeq [0, 1] (UsageTracker.init "claude-opus-4.5")).stats.sessionRequests = 2 ∧
    (recordSeq [0, 1] (UsageTracker.init "claude-opus-4.5")).stats.sessionTotal
        ≤ (recordSeq [0, 1, 2] (UsageTracker.init "claude-opus-4.5")).stats.sessionTotal ∧
    (recordSeq [0, 1] (UsageTracker.init "claude-opus-4.5")).stats.sessionRequests
        ≤ (recordSeq [0, 1, 2] (UsageTracker.init "claude-opus-4.5")).stats.sessionRequests :=
  recordRequest_totals "claude-opus-4.5" [0, 1] [0, 1, 2] (by norm_num)

/-- Claim C7: `endConversation` returns the completed conversation (with
`endTime` set and the copy appended to history) when one is open, is a no-op
returning `none` when nothing is open, a second consecutive call always
returns `none` without changing state, and the first of two consecutive calls
returns a value whenever a conversation was open. -/
theorem endConversation_spec (t : UsageTracker) (n₁ n₂ : Nat) :
    (t.currentConversation = none → t.endConversation n₁ = (none, t)) ∧
    (∀ conv, t.currentConversation = some conv →
        (t.endConversation n₁).1 = some { conv with endTime := some n₁ } ∧
        (t.endConversation n₁).2.stats.conversations
          = t.stats.conversations ++ [{ conv with endTime := some n₁ }] ∧
        (t.endConversation n₁).2.currentConversation = none) ∧
    ((t.endConversation n₁).2.endConversation n₂
        = (none, (t.endConversation n₁).2)) ∧
    (t.currentConversation.isSome = true → ((t.endConversation n₁).1).isSome = true) := by
  refine ⟨?_, ?_, ?_, ?_⟩
  · intro hc
    simp [UsageTracker.endConversation, hc]
  · intro conv hc
    simp [UsageTracker.endConversation, hc]
  · cases hc : t.currentConversation <;>
      simp [UsageTracker.endConversation, hc]
  · intro hs
    cases hc : t.currentConversation with
    | none => rw [hc] at hs; simp at hs
    | some conv => simp [UsageTracker.endConversation, hc]

/-- Claim C7, witness: with an open conversation the first call returns a
value; with nothing open the call is a no-op returning `none`. -/
theorem endConversation_spec_witness :
    (((UsageTracker.init "m").recordRequest 0).endConversation 1).1.isSome = true ∧
    (UsageTracker.init "m").endConversation 1 = (none, UsageTracker.init "m") :=
  ⟨(endConversation_spec ((UsageTracker.init "m").recordRequest 0) 1 2).2.2.2 rfl,
   (endConversation_spec (UsageTracker.init "m") 1 2).1 rfl⟩

/-- Claim C8: saving a config and loading it back by its id yields a value
deep-equal to the saved config (round-trip through the per-identifier
on-disk record). -/
theorem saveSubagentConfig_roundtrip (store : List (String × Json))
    (config : SubagentConfig) :
    getSubagentConfig (saveSubagentConfig store config) config.id = some config :=
  getSubagentConfig_saveSubagentConfig store config

/-- Claim C10: the accounting invariant — session totals equal the sums over
completed conversations plus the open conversation's counters — holds after
every sequence of `recordRequest`/`endConversation` operations from the
initial tracker state. -/
theorem usage_totals_invariant (model : String) (ops : List TrackerOp) :
    TrackerInv (runOps ops (UsageTracker.init model)) :=
  trackerInv_runOps_aux ops (trackerInv_init model)

/-- Claim C1: `createSubagent` is atomic create-or-nothing — when the runtime
session construction fails nothing is persisted or cached and the registry
state is exactly the input state; when it succeeds, the returned instance
carries the freshly generated id (modelled as the `freshId` input produced by
the timestamp+random generator), the config record is persisted under that id,
the instance is cached under that id, and no other identifier's store or cache
entry changes. -/
theorem createSubagent_atomic (client : CopilotClient)
    (freshId createdAt description model systemPrompt : String) (st : RegistryState) :
    (buildSession client ⟨freshId, description, model, systemPrompt, createdAt⟩ = none →
        createSubagent client freshId createdAt description model systemPrompt st
          = (.error (), st)) ∧
    (∀ session,
        buildSession client ⟨freshId, description, model, systemPrompt, createdAt⟩
            = some session →
        createSubagent client freshId createdAt description model systemPrompt st
            = (.ok ⟨⟨freshId, description, model, systemPrompt, createdAt⟩, session⟩,
               ⟨saveSubagentConfig st.store ⟨freshId, description, model, systemPrompt, createdAt⟩,
                mapSet st.cache freshId
                  ⟨⟨freshId, description, model, systemPrompt, createdAt⟩, session⟩⟩) ∧
        getSubagentConfig
            (createSubagent client freshId createdAt description model systemPrompt st).2.store
            freshId
          = some ⟨freshId, description, model, systemPrompt, createdAt⟩ ∧
        mapGet (createSubagent client freshId createdAt description model systemPrompt st).2.cache
            freshId
          = some ⟨⟨freshId, description, model, systemPrompt, createdAt⟩, session⟩ ∧
        (∀ j, j ≠ freshId →
            mapGet (createSubagent client freshId createdAt description model systemPrompt
                st).2.store j = mapGet st.store j ∧
            mapGet (createSubagent client freshId createdAt description model systemPrompt
                st).2.cache j = mapGet st.cache j)) := by
  constructor
  · intro h
    simp [createSubagent, h]
  · intro session h
    have he : createSubagent client freshId createdAt description model systemPrompt st
        = (.ok ⟨⟨freshId, description, model, systemPrompt, createdAt⟩, session⟩,
           ⟨saveSubagentConfig st.store ⟨freshId, description, model, systemPrompt, createdAt⟩,
            mapSet st.cache freshId
              ⟨⟨freshId, description, model, systemPrompt, createdAt⟩, session⟩⟩) := by
      simp [createSubagent, h]
    refine ⟨he, ?_, ?_, ?_⟩
    · rw [he]
      exact getSubagentConfig_saveSubagentConfig st.store
        ⟨freshId, description, model, systemPrompt, createdAt⟩
    · rw [he]
      exact mapGet_mapSet_self st.cache freshId
        ⟨⟨freshId, description, model, systemPrompt, createdAt⟩, session⟩
    · intro j hj
      rw [he]
      exact ⟨mapGet_mapSet_ne st.store freshId j _ hj, mapGet_mapSet_ne st.cache freshId j _ hj⟩

/-- Claim C1, witness: a failing runtime leaves an empty registry untouched; a
succeeding runtime returns the cached instance for the fresh id. -/
theorem createSubagent_atomic_witness :
    createSubagent ⟨fun _ => none⟩ "id1" "t1" "d" "m" "p" ⟨[], []⟩
        = (.error (), ⟨[], []⟩) ∧
    (createSubagent ⟨fun _ => some ⟨7⟩⟩ "id1" "t1" "d" "m" "p" ⟨[], []⟩).1
        = .ok ⟨⟨"id1", "d", "m", "p", "t1"⟩, ⟨7⟩⟩ :=
  ⟨(createSubagent_atomic ⟨fun _ => none⟩ "id1" "t1" "d" "m" "p" ⟨[], []⟩).1 rfl,
   by rw [((createSubagent_atomic ⟨fun _ => some ⟨7⟩⟩ "id1" "t1" "d" "m" "p"
       ⟨[], []⟩).2 ⟨7⟩ rfl).1]⟩

/-- Claim C2: `getOrCreateSubagent` returns the cached handle for an active
identifier without touching state; for a configured identifier (stored config,
no cached handle) it returns a new active handle built from the stored config
— so its description, model and systemPrompt equal the persisted config's —
caching it; for an absent identifier it returns `none` without touching state. -/
theorem getOrCreateSubagent_spec (client : CopilotClient) (id : String)
    (st : RegistryState) :
    (∀ inst, mapGet st.cache id = some inst →
        getOrCreateSubagent client id st = (.ok (some inst), st)) ∧
    (mapGet st.cache id = none → getSubagentConfig st.store id = none →
        getOrCreateSubagent client id st = (.ok none, st)) ∧
    (∀ config session, mapGet st.cache id = none →
        getSubagentConfig st.store id = some config →
        buildSession client config = some session →
        getOrCreateSubagent client id st
            = (.ok (some ⟨config, session⟩),
               { st with cache := mapSet st.cache id ⟨config, session⟩ }) ∧
        (∀ inst, (getOrCreateSubagent client id st).1 = .ok (some inst) →
            inst.config.description = config.description ∧
            inst.config.model = config.model ∧
            inst.config.systemPrompt = config.systemPrompt)) := by
  refine ⟨?_, ?_, ?_⟩
  · intro inst h
    simp [getOrCreateSubagent, h]
  · intro h₁ h₂
    simp [getOrCreateSubagent, h₁, h₂]
  · intro config session h₁ h₂ h₃
    have he : getOrCreateSubagent client id st
        = (.ok (some ⟨config, session⟩),
           { st with cache := mapSet st.cache id ⟨config, session⟩ }) := by
      simp [getOrCreateSubagent, h₁, h₂, h₃]
    refine ⟨he, ?_⟩
    intro inst hi
    rw [he] at hi
    simp only [Except.ok.injEq, Option.some.injEq] at hi
    rw [← hi]
    exact ⟨rfl, rfl, rfl⟩

/-- Claim C2, witness: the three states at concrete registries — active returns
the cached handle, absent returns `none`, configured rehydrates from the
stored config. -/
theorem getOrCreateSubagent_spec_witness :
    getOrCreateSubagent ⟨fun _ => none⟩ "a"
        ⟨[], [("a", ⟨⟨"a", "d", "m", "p", "t"⟩, ⟨5⟩⟩)]⟩
        = (.ok (some ⟨⟨"a", "d", "m", "p", "t"⟩, ⟨5⟩⟩),
           ⟨[], [("a", ⟨⟨"a", "d", "m", "p", "t"⟩, ⟨5⟩⟩)]⟩) ∧
    getOrCreateSubagent ⟨fun _ => none⟩ "a" ⟨[], []⟩ = (.ok none, ⟨[], []⟩) ∧
    (getOrCreateSubagent ⟨fun _ => some ⟨9⟩⟩ "a"
        ⟨[("a", configToJson ⟨"a", "d", "m", "p", "t"⟩)], []⟩).1
        = .ok (some ⟨⟨"a", "d", "m", "p", "t"⟩, ⟨9⟩⟩) :=
  ⟨(getOrCreateSubagent_spec ⟨fun _ => none⟩ "a"
      ⟨[], [("a", ⟨⟨"a", "d", "m", "p", "t"⟩, ⟨5⟩⟩)]⟩).1 _ rfl,
   (getOrCreateSubagent_spec ⟨fun _ => none⟩ "a" ⟨[], []⟩).2.1 rfl rfl,
   by rw [((getOrCreateSubagent_spec ⟨fun _ => some ⟨9⟩⟩ "a"
       ⟨[("a", configToJson ⟨"a", "d", "m", "p", "t"⟩)], []⟩).2.2 ⟨"a", "d", "m", "p", "t"⟩
       ⟨9⟩ rfl (by decide) rfl).1]⟩

/-- Claim C5: `destroySubagent` on an active identifier releases exactly that
identifier's runtime session and evicts only its cache entry — the on-disk
store and every other identifier's cache entry are unchanged, and the
identifier remains resolvable by a later `getOrCreateSubagent` from its stored
config; on a configured or absent identifier it is a no-op. -/
theorem destroySubagent_spec (idv : String) (st : RegistryState) :
    (mapGet st.cache idv = none → destroySubagent idv st = (none, st)) ∧
    (∀ inst, mapGet st.cache idv = some inst →
        (destroySubagent idv st).1 = some inst.session ∧
        (destroySubagent idv st).2.store = st.store ∧
        mapGet (destroySubagent idv st).2.cache idv = none ∧
        (∀ j, j ≠ idv →
            mapGet (destroySubagent idv st).2.cache j = mapGet st.cache j) ∧
        (∀ (client : CopilotClient) config session,
            getSubagentConfig st.store idv = some config →
            buildSession client config = some session →
            (getOrCreateSubagent client idv (destroySubagent idv st).2).1
              = .ok (some ⟨config, session⟩))) := by
  constructor
  · intro h
    simp [destroySubagent, h]
  · intro inst h
    have he : destroySubagent idv st
        = (some inst.session, { st with cache := mapDelete st.cache idv }) := by
      simp [destroySubagent, h]
    refine ⟨by rw [he], by rw [he], ?_, ?_, ?_⟩
    · rw [he]
      exact mapGet_mapDelete_self st.cache idv
    · intro j hj
      rw [he]
      exact mapGet_mapDelete_ne st.cache idv j hj
    · intro client config session hconf hbs
      rw [he]
      simp [getOrCreateSubagent, mapGet_mapDelete_self, hconf, hbs]

/-- Claim C5, witness: destroying an active identifier with a stored config
releases its session, evicts it from the cache, and a later
`getOrCreateSubagent` rehydrates it. -/
theorem destroySubagent_spec_witness :
    (destroySubagent "a"
        ⟨[("a", configToJson ⟨"a", "d", "m", "p", "t"⟩)],
         [("a", ⟨⟨"a", "d", "m", "p", "t"⟩, ⟨5⟩⟩)]⟩).1 = some ⟨5⟩ ∧
    mapGet (destroySubagent "a"
        ⟨[("a", configToJson ⟨"a", "d", "m", "p", "t"⟩)],
         [("a", ⟨⟨"a", "d", "m", "p", "t"⟩, ⟨5⟩⟩)]⟩).2.cache "a" = none ∧
    (getOrCreateSubagent ⟨fun _ => some ⟨9⟩⟩ "a"
        (destroySubagent "a"
          ⟨[("a", configToJson ⟨"a", "d", "m", "p", "t"⟩)],
           [("a", ⟨⟨"a", "d", "m", "p", "t"⟩, ⟨5⟩⟩)]⟩).2).1
        = .ok (some ⟨⟨"a", "d", "m", "p", "t"⟩, ⟨9⟩⟩) := by
  have h := (destroySubagent_spec "a"
      ⟨[("a", configToJson ⟨"a", "d", "m", "p", "t"⟩)],
       [("a", ⟨⟨"a", "d", "m", "p", "t"⟩, ⟨5⟩⟩)]⟩).2
      ⟨⟨"a", "d", "m", "p", "t"⟩, ⟨5⟩⟩ rfl
  exact ⟨h.1, h.2.2.1, h.2.2.2.2 ⟨fun _ => some ⟨9⟩⟩ ⟨"a", "d", "m", "p", "t"⟩ ⟨9⟩
    (by decide) rfl⟩

/-- Claim C4, counterexample: over a store holding only the "math expert"
config, the query "zzz " (trailing whitespace) returns that config, although
none of the query's whitespace-separated tokens occurs in the description —
the JavaScript tokenizer also emits an empty-string token, which matches
every description. -/
theorem findSimilarSubagents_counterexample :
    findSimilarSubagents [("b", configToJson ⟨"b", "math expert", "m", "p", "t"⟩)] "zzz "
        = [⟨"b", "math expert", "m", "p", "t"⟩] ∧
    (wsTokens (jsToLower "zzz ")).any
        (fun kw => strContains (jsToLower "math expert") kw) = false := by
  constructor
  · decide
  · decide

/-- Claim C4, amended: when the tokenizer produces no empty token (the query is
nonempty with no leading or trailing whitespace), `findSimilarSubagents`
returns exactly the stored configs whose lowercased description contains at
least one of the query's lowercased whitespace-separated tokens, in store
order; when an empty token is produced it matches every description, so every
stored config is returned. -/
theorem findSimilarSubagents_spec (store : List (String × Json)) (q : String) :
    ("" ∉ jsSplitWs (jsToLower q) →
        findSimilarSubagents store q
          = (loadSubagentConfigs store).filter
              (fun c => (wsTokens (jsToLower q)).any
                  (fun kw => strContains (jsToLower c.description) kw))) ∧
    ("" ∈ jsSplitWs (jsToLower q) →
        findSimilarSubagents store q = loadSubagentConfigs store) := by
  constructor
  · intro h
    unfold findSimilarSubagents
    rw [wsTokens_eq_of_no_empty h]
  · intro h
    unfold findSimilarSubagents
    refine List.filter_eq_self.mpr fun c _ => ?_
    exact List.any_eq_true.mpr ⟨"", h, strContains_empty _⟩

/-- Claim C4, witness (the spec's own example): over the poetry-specialist and
math-expert configs, the query "poet translator" (no empty token) selects
exactly the poetry-specialist config. -/
theorem findSimilarSubagents_spec_witness :
    findSimilarSubagents
        [("a", configToJson ⟨"a", "poetry specialist", "m", "p", "t"⟩),
         ("b", configToJson ⟨"b", "math expert", "m", "p", "t"⟩)] "poet translator"
      = [⟨"a", "poetry specialist", "m", "p", "t"⟩] := by
  rw [(findSimilarSubagents_spec
      [("a", configToJson ⟨"a", "poetry specialist", "m", "p", "t"⟩),
       ("b", configToJson ⟨"b", "math expert", "m", "p", "t"⟩)] "poet translator").1
      (by decide)]
  decide

/-- Claim C9: `detectChanges` returns the empty list exactly when the two
snapshots are equal as path-to-mtime maps (the post-request snapshot having
unique paths, as directory walks do); the handler's restart step exits
precisely when the list is non-empty, and any exit code it produces is the
reserved sentinel `RESTART_EXIT_CODE = 42`. -/
theorem detectChanges_spec (projectRoot : String) (before after : FileSnapshot)
    (hnd : (after.map Prod.fst).Nodup) :
    (detectChanges projectRoot before after = []
        ↔ ∀ f, mapGet before f = mapGet after f) ∧
    (restartDecision projectRoot before after = none
        ↔ detectChanges projectRoot before after = []) ∧
    (∀ code, restartDecision projectRoot before after = some code →
        code = RESTART_EXIT_CODE) ∧
    RESTART_EXIT_CODE = 42 := by
  refine ⟨?_, ?_, ?_, rfl⟩
  · unfold detectChanges
    rw [List.append_eq_nil, List.filterMap_eq_nil_iff, List.filterMap_eq_nil_iff]
    constructor
    · rintro ⟨hAdd, hDel⟩ f
      have hAdd' : ∀ p ∈ after, mapGet before p.1 = some p.2 := by
        intro p hp
        have h := hAdd p hp
        cases hb : mapGet before p.1 with
        | none => rw [hb] at h; simp at h
        | some m =>
          rw [hb] at h
          by_cases hm : m = p.2
          · rw [hm]
          · simp [hm] at h
      cases hga : mapGet after f with
      | some m =>
        have := hAdd' (f, m) (mapGet_mem hga)
        exact this
      | none =>
        cases hgb : mapGet before f with
        | none => rfl
        | some m =>
          have hmem := mapGet_mem hgb
          have h := hDel (f, m) hmem
          rw [hga] at h
          simp at h
    · intro hext
      constructor
      · intro p hp
        have hga : mapGet after p.1 = some p.2 := mem_mapGet_of_nodup hnd hp
        have hgb : mapGet before p.1 = some p.2 := by rw [hext p.1, hga]
        rw [hgb]
        simp
      · intro p hp
        have hs : (mapGet before p.1).isSome = true := mapGet_isSome_of_mem hp
        rw [hext p.1] at hs
        simp [hs]
  · unfold restartDecision
    by_cases hl : detectChanges projectRoot before after = []
    · simp [hl]
    · have : 0 < (detectChanges projectRoot before after).length :=
        List.length_pos.mpr hl
      simp [hl, this]
  · intro code
    unfold restartDecision
    by_cases hl : 0 < (detectChanges projectRoot before after).length
    · simp only [hl, if_pos, gt_iff_lt, Option.some.injEq]
      intro h
      exact h.symm
    · simp [hl]

/-- Claim C9, witness: identical snapshots produce no changes and no restart;
a changed mtime produces the sentinel exit code 42. -/
theorem detectChanges_spec_witness :
    detectChanges "/r" [("/r/src/a", 1)] [("/r/src/a", 1)] = [] ∧
    restartDecision "/r" [("/r/src/a", 1)] [("/r/src/a", 1)] = none ∧
    restartDecision "/r" [("/r/src/a", 1)] [("/r/src/a", 2)] = some 42 := by
  have h := detectChanges_spec "/r" [("/r/src/a", 1)] [("/r/src/a", 1)] (by simp)
  have h2 := detectChanges_spec "/r" [("/r/src/a", 1)] [("/r/src/a", 2)] (by simp)
  have hnil : detectChanges "/r" [("/r/src/a", 1)] [("/r/src/a", 1)] = [] :=
    h.1.mpr fun f => rfl
  refine ⟨hnil, h.2.1.mpr hnil, ?_⟩
  have hne : detectChanges "/r" [("/r/src/a", 1)] [("/r/src/a", 2)] ≠ [] := by
    intro he
    have := h2.1.mp he "/r/src/a"
    simp [mapGet] at this
  cases hr : restartDecision "/r" [("/r/src/a", 1)] [("/r/src/a", 2)] with
  | none => exact absurd (h2.2.1.mp hr) hne
  | some code => rw [h2.2.2.1 code hr, h2.2.2.2]

end Fairy
